import Mathlib

/-!
Shallow embedding of `src/processor/simple_symbol_supplier.cc` (breakpad fork
with a fetch/convert pipeline), and proofs about it.

Conventions of the embedding:
* C++ `std::string` is Lean `String`; all paths and names in scope are ASCII,
  so byte positions (`size()`, `substr`, pointer offsets) coincide with
  character positions (`String.length`, `String.take`/`drop`).
* External effects (libcurl in `load_url`, `mkdir`, `fopen`, the
  `system("… dump_syms.exe …")` call, `new char[]` allocation) are oracles in
  an `Env` record; the local filesystem and the `memory_buffers_` map are an
  explicit `SupState` threaded through the functions.
* Fallible C calls return `Option`/`Bool` in the oracle: `Env.fetch` is
  `load_url` (returns `none` where the C returns `NULL`), `Env.mkdirResult`
  gives `mkdir`'s outcome per directory (`none` = success, `some e` = failure
  with `errno = e`), `Env.fopenOk` whether `fopen(path, "wb")` yields a
  stream, `Env.convert` the external converter's stdout (`none` = nonzero
  exit), `Env.allocOk` whether `new char[n]` yields storage.
-/

set_option autoImplicit false

namespace Breakpad

/-- The part of `google_breakpad::CodeModule` this file reads: four string
accessors (`code_file`, `debug_file`, `debug_identifier`, `version`). -/
structure Module where
  code_file : String
  debug_file : String
  debug_identifier : String
  version : String
deriving DecidableEq

/-- Modelled from the spec: `PathnameStripper::File` is not under `src/`; the
spec says "strip any directory components and use it".  Returns the part of
`path` after the last `/` or `\` separator (the whole string when there is
no separator). -/
def pathnameFile (path : String) : String :=
  ⟨path.data.foldl (fun acc c => if c = '/' ∨ c = '\\' then [] else acc ++ [c]) []⟩

/-- ASCII `tolower`, as applied by `std::transform(…, tolower)` on the
extension (all characters in scope are ASCII). -/
def asciiLower (c : Char) : Char :=
  if 'A' ≤ c ∧ c ≤ 'Z' then Char.ofNat (c.toNat + 32) else c

/-- Lower-case an entire string (the `std::transform` loop). -/
def strLower (s : String) : String := ⟨s.data.map asciiLower⟩

/-- `s.substr(0, n)`: the first `n` characters (all strings in scope are
ASCII, so byte counts equal character counts). -/
def strTake (s : String) (n : Nat) : String := ⟨s.data.take n⟩

/-- `s.substr(n)`: everything from character position `n` on. -/
def strDrop (s : String) (n : Nat) : String := ⟨s.data.drop n⟩

/-- Lines 295–307: transform `debug_file_name` into the stem used for both
the `.sym` and `.pdb` paths.  `debug_file_extension` is only populated when
`size() > 4`; it is lower-cased and compared against `".pdb"`; on a match the
last four characters are stripped, otherwise the name is kept unchanged. -/
def symStem (debug_file_name : String) : String :=
  let debug_file_extension : String :=
    if debug_file_name.length > 4 then
      strLower (strDrop debug_file_name (debug_file_name.length - 4))
    else ""
  if debug_file_extension = ".pdb" then
    strTake debug_file_name (debug_file_name.length - 4)
  else debug_file_name

/-- Lines 260–265: the debug file base name, synthesized from `code_file`
when `debug_file` strips to empty and the `code_file` base name is longer
than three characters (drop the last three characters — an assumed
3-character extension — and append `"pdb"`). -/
def synthDebugFileName (m : Module) : String :=
  let debug_file_name := pathnameFile m.debug_file
  let code_file := pathnameFile m.code_file
  if debug_file_name = "" ∧ code_file.length > 3 then
    strTake code_file (code_file.length - 3) ++ "pdb"
  else debug_file_name

/-- Lines 254–307 of `GetSymbolFileAtPathFromRoot`: the pure path
derivation.  Returns `none` when no debug file name can be constructed
(lines 266–270, `return NOT_FOUND`), otherwise
`some (path, path_pdb)` — the `.sym` path and the `.pdb` path, built by the
same sequence of appends as the source. -/
def derivePaths (m : Module) (root_path : String) : Option (String × String) :=
  let path := root_path ++ "/"
  let debug_file_name := synthDebugFileName m
  if debug_file_name = "" then none
  else
    let path := path ++ debug_file_name
    let path :=
      if m.debug_identifier ≠ "" ∨ m.version ≠ "" then
        path ++ "/" ++
          (if m.debug_identifier ≠ "" then m.debug_identifier else m.version)
      else path
    let path := path ++ "/"
    let path := path ++ symStem debug_file_name
    some (path ++ ".sym", path ++ ".pdb")

/-- Line 311: the fixed symbol-server base URL. -/
def symbolServerBase : String := "http://msdl.microsoft.com/download/symbols"

/-- Line 311: the fetch URL is the base URL concatenated with
`path_pdb.c_str() + root_path.length()`, i.e. `path_pdb` with the first
`root_path.length` characters dropped. -/
def fetchUrl (root_path path_pdb : String) : String :=
  symbolServerBase ++ strDrop path_pdb root_path.length

/-- Oracles for the external world (network, filesystem primitives, the
external converter, the allocator).  See the file header for the mapping to
the C calls. -/
structure Env where
  fetch : String → Option (List Nat)
  mkdirResult : String → Option Nat
  fopenOk : String → Bool
  convert : Option (List Nat) → Option (List Nat)
  allocOk : Nat → Bool

/-- Linux `errno` values the source distinguishes (`mkpath` tests
`errno == ENOENT`; `EEXIST`/`EACCES` matter for the claims). -/
def ENOENT : Nat := 2

/-- `errno` for "permission denied". -/
def EACCES : Nat := 13

/-- `errno` for "file exists". -/
def EEXIST : Nat := 17

/-- The mutable world the supplier touches: regular files by path (with
their byte contents), call counters for the fetcher and the converter, the
`memory_buffers_` member (`std::map<string, char *>`, buffers named by
allocation number), and the allocation counter naming the next buffer. -/
structure SupState where
  files : List (String × List Nat)
  fetchCalls : Nat
  convertCalls : Nat
  memory_buffers : List (String × Nat)
  nextBuf : Nat
deriving DecidableEq

/-- Contents of the regular file at `p`, if one exists. -/
def lookupFile : List (String × List Nat) → String → Option (List Nat)
  | [], _ => none
  | (q, c) :: rest, p => if q = p then some c else lookupFile rest p

/-- Create or truncate-and-rewrite the regular file at `p`. -/
def setFile : List (String × List Nat) → String → List Nat → List (String × List Nat)
  | [], p, c => [(p, c)]
  | (q, c0) :: rest, p, c =>
    if q = p then (q, c) :: rest else (q, c0) :: setFile rest p c

/-- `unlink(p)`. -/
def removeFile : List (String × List Nat) → String → List (String × List Nat)
  | [], _ => []
  | (q, c) :: rest, p => if q = p then rest else (q, c) :: removeFile rest p

/-- Lines 156–159: `file_exists` is a successful `stat`, i.e. a file is
present at that path. -/
def file_exists (fs : List (String × List Nat)) (p : String) : Bool :=
  (lookupFile fs p).isSome

/-- `std::map::find` on an association list. -/
def mapFind : List (String × Nat) → String → Option Nat
  | [], _ => none
  | (q, v) :: rest, k => if q = k then some v else mapFind rest k

/-- `std::map::insert`: adds the pair only when the key is absent; an
existing entry for the key is left untouched (C++ semantics of
`map::insert`, line 222). -/
def mapInsert (m : List (String × Nat)) (k : String) (v : Nat) : List (String × Nat) :=
  if (mapFind m k).isSome then m else m ++ [(k, v)]

/-- `std::map::erase(it)` for the entry with key `k`. -/
def mapErase : List (String × Nat) → String → List (String × Nat)
  | [], _ => []
  | (q, v) :: rest, k => if q = k then rest else (q, v) :: mapErase rest k

/-- Lines 310–330, the body of `if (!file_exists(path))`: build the URL and
call `load_url` (`Env.fetch`); call `mkpath` (its return value is ignored by
the source, and `mkdir` directory side effects are not tracked as regular
files); `fopen(path_pdb, "wb")` creates or truncates the file at `path_pdb`
when it succeeds, and `fwrite(data, 1, buf_size, f)` stores the fetched
bytes — when the fetch failed, `data` is `NULL` and `buf_size` is the
callee's uninitialized output parameter, so only the benign `buf_size = 0`
reading is representable: the file is left created but empty (any other
value makes the `fwrite` dereference `NULL`).  Then
`system("wine dump_syms.exe <path_pdb> ><path>")`: assuming the shell is
spawned, the output redirection creates or truncates the file at `path`
before the converter runs, so a failed conversion leaves an empty file
there, while a successful one (exit status 0) stores the converter's stdout
and is followed by `unlink(path_pdb)`. -/
def cacheMissPipeline (env : Env) (root_path path path_pdb : String)
    (s : SupState) : SupState :=
  let url := fetchUrl root_path path_pdb
  let data := env.fetch url
  let s1 : SupState := { s with fetchCalls := s.fetchCalls + 1 }
  let s2 : SupState :=
    if env.fopenOk path_pdb then
      { s1 with files := setFile s1.files path_pdb (data.getD []) }
    else s1
  let r := env.convert (lookupFile s2.files path_pdb)
  let s3 : SupState :=
    { s2 with
      convertCalls := s2.convertCalls + 1
      files := setFile s2.files path (r.getD []) }
  if r.isSome then { s3 with files := removeFile s3.files path_pdb } else s3

/-- `SymbolSupplier::SymbolResult`. -/
inductive SymbolResult
  | FOUND
  | NOT_FOUND
  | INTERRUPT
deriving DecidableEq

/-- Result of one lookup entry point: the `SymbolResult`, the `symbol_file`
output parameter (`none` when it was left cleared), and the world after the
call. -/
structure LookupResult where
  result : SymbolResult
  symbol_file : Option String
  state : SupState
deriving DecidableEq

/-- Lines 243–340: `SimpleSymbolSupplier::GetSymbolFileAtPathFromRoot`.  A
`NULL` module or a failed path derivation returns `NOT_FOUND` at once; when
the symbol file is absent the cache-miss pipeline runs; the final existence
re-check decides `FOUND` (with `*symbol_file = path`) versus `NOT_FOUND`. -/
def GetSymbolFileAtPathFromRoot (env : Env) (module : Option Module)
    (root_path : String) (s : SupState) : LookupResult :=
  match module with
  | none => ⟨SymbolResult.NOT_FOUND, none, s⟩
  | some m =>
    match derivePaths m root_path with
    | none => ⟨SymbolResult.NOT_FOUND, none, s⟩
    | some (path, path_pdb) =>
      let s' := if file_exists s.files path then s
                else cacheMissPipeline env root_path path path_pdb s
      if file_exists s'.files path then ⟨SymbolResult.FOUND, some path, s'⟩
      else ⟨SymbolResult.NOT_FOUND, none, s'⟩

/-- Lines 161–178: `GetSymbolFile(module, system_info, symbol_file)` — try
each configured root in order, returning the first result that is not
`NOT_FOUND`. -/
def GetSymbolFile (env : Env) (module : Option Module) :
    List String → SupState → LookupResult
  | [], s => ⟨SymbolResult.NOT_FOUND, none, s⟩
  | root :: rest, s =>
    let r := GetSymbolFileAtPathFromRoot env module root s
    if r.result = SymbolResult.NOT_FOUND then GetSymbolFile env module rest r.state
    else r

/-- Lines 180–197: `GetSymbolFile(module, system_info, symbol_file,
symbol_data)` — on `FOUND`, read the whole symbol file into
`symbol_data` (the `std::getline` with the EOF character as delimiter;
symbol files are assumed not to contain that byte). -/
def GetSymbolFileAndData (env : Env) (module : Option Module)
    (roots : List String) (s : SupState) :
    SymbolResult × Option String × Option (List Nat) × SupState :=
  let r := GetSymbolFile env module roots s
  if r.result = SymbolResult.FOUND then
    let content :=
      match r.symbol_file with
      | some p => (lookupFile r.state.files p).getD []
      | none => []
    (r.result, r.symbol_file, some content, r.state)
  else (r.result, r.symbol_file, none, r.state)

/-- `module->code_file()` (the source only evaluates it when a lookup has
already succeeded, which requires a non-`NULL` module). -/
def codeFileOf : Option Module → String
  | some m => m.code_file
  | none => ""

/-- Result of `GetCStringSymbolData`: the `SymbolResult`, the `symbol_file`
output, the issued buffer as `(allocation number, bytes, symbol_data_size)`
when one was handed out, and the world after the call. -/
structure CStrResult where
  result : SymbolResult
  symbol_file : Option String
  buffer : Option (Nat × List Nat × Nat)
  state : SupState
deriving DecidableEq

/-- Lines 199–225: `GetCStringSymbolData`.  On `FOUND`,
`symbol_data_size = contents.size() + 1`, a fresh buffer holds the contents
plus a terminating `'\0'` byte; allocation failure returns `INTERRUPT`;
otherwise the buffer is `insert`ed into `memory_buffers_` keyed by
`module->code_file()` and handed to the caller. -/
def GetCStringSymbolData (env : Env) (module : Option Module)
    (roots : List String) (s : SupState) : CStrResult :=
  let (res, sf, sdata, s') := GetSymbolFileAndData env module roots s
  if res = SymbolResult.FOUND then
    let content := sdata.getD []
    let size := content.length + 1
    if env.allocOk size then
      let bufId := s'.nextBuf
      let buf := content ++ [0]
      ⟨res, sf, some (bufId, buf, size),
        { s' with
          nextBuf := bufId + 1
          memory_buffers := mapInsert s'.memory_buffers (codeFileOf module) bufId }⟩
    else ⟨SymbolResult.INTERRUPT, sf, none, s'⟩
  else ⟨res, sf, none, s'⟩

/-- Lines 227–241: `FreeSymbolData` — a `NULL` module returns at once; an
unregistered module is a no-op; otherwise the buffer is freed and its entry
erased.  Only the `memory_buffers_` member is touched, so the function is
modelled on it. -/
def FreeSymbolData (module : Option Module)
    (memory_buffers : List (String × Nat)) : List (String × Nat) :=
  match module with
  | none => memory_buffers
  | some m =>
    match mapFind memory_buffers m.code_file with
    | none => memory_buffers
    | some _ => mapErase memory_buffers m.code_file

/-- Lines 133–144, the separator scan of `mkpath`: `p` starts at
`buffer + 1`, so `pre` (the characters already passed over) is never empty.
At each `/` or `\` the prefix before it is `mkdir`ed; the call is fatal
(`goto fail`, return `0`) exactly when it fails with `errno == ENOENT`; any
other outcome — success, `EEXIST`, `EACCES`, anything — falls through to the
next component.  The final component after the last separator is never
`mkdir`ed (`if (!*p) break`). -/
def mkpathLoop (mkdirO : String → Option Nat) : List Char → List Char → Bool
  | _, [] => true
  | pre, c :: rest =>
    if c = '/' ∨ c = '\\' then
      match mkdirO ⟨pre⟩ with
      | some e => if e = ENOENT then false else mkpathLoop mkdirO (pre ++ [c]) rest
      | none => mkpathLoop mkdirO (pre ++ [c]) rest
    else mkpathLoop mkdirO (pre ++ [c]) rest

/-- Lines 109–152: `mkpath(path)`, with `mkdir` as the oracle `mkdirO`
(`none` = success, `some e` = failure with `errno = e`); returns `true` for
the source's `1` (success) and `false` for `0`.  An empty path returns `0`.
When the path ends in `/`, the source first tries `mkdir` on the path with
the trailing slash removed and returns `1` immediately on success; on
failure the slash is restored and the normal scan runs over the full path
(the oracle is pure, so guarding the extra `mkdir` probe inside the `∧` is
faithful).  `malloc` failure is not modelled (the buffer is a local copy of
the path). -/
def mkpath (mkdirO : String → Option Nat) (path : String) : Bool :=
  if path.length ≤ 0 then false
  else if path.data.getLast? = some '/'
          ∧ mkdirO (strTake path (path.length - 1)) = none then true
  else
    match path.data with
    | [] => true
    | c0 :: rest => mkpathLoop mkdirO [c0] rest

/-- Written from the spec's words for comparison in `C9` ("if
`module.debugIdentifier` is non-empty, append it as the next path segment;
else if `module.version` is non-empty, append that instead; else omit this
segment entirely"): the intermediate path segment between the debug file
base name and the stem. -/
def specIdentSegment (m : Module) : String :=
  if m.debug_identifier ≠ "" then "/" ++ m.debug_identifier
  else if m.version ≠ "" then "/" ++ m.version
  else ""

/-- The `C1` scenario module: `{codeFile: "app.exe", debugFile: "",
debugIdentifier: "ABC123", version: ""}`. -/
def mApp : Module := ⟨"app.exe", "", "ABC123", ""⟩

/-- A concrete environment: every fetch fails (`load_url` returns `NULL`),
every `mkdir` succeeds, `fopen` succeeds, the converter always exits
nonzero, allocation succeeds. -/
def env0 : Env := ⟨fun _ => none, fun _ => none, fun _ => true, fun _ => none, fun _ => true⟩

/-- The empty initial world: no files, no calls made, no buffers. -/
def st0 : SupState := ⟨[], 0, 0, [], 0⟩

/-- A world where the `C1` symbol file is already cached (contents `"A"`,
byte `65`). -/
def stHit : SupState := ⟨[("/cache/app.pdb/ABC123/app.sym", [65])], 0, 0, [], 0⟩

/-- An `mkdir` oracle that always succeeds. -/
def mkdirOk : String → Option Nat := fun _ => none

/-- An `mkdir` oracle failing with `EACCES` (permission denied) on `/a` and
succeeding elsewhere. -/
def mkdirAcces : String → Option Nat := fun d => if d = "/a" then some EACCES else none

/-- An `mkdir` oracle failing with `ENOENT` on `/a` and succeeding
elsewhere. -/
def mkdirNoent : String → Option Nat := fun d => if d = "/a" then some ENOENT else none

/-- The cache-miss pipeline only touches files and the two call counters,
never `memory_buffers_` or the allocation counter. -/
theorem cacheMiss_preserves_buffers (env : Env) (root path path_pdb : String)
    (s : SupState) :
    (cacheMissPipeline env root path path_pdb s).memory_buffers = s.memory_buffers
    ∧ (cacheMissPipeline env root path path_pdb s).nextBuf = s.nextBuf := by
  simp only [cacheMissPipeline]
  split
  · split
    · exact ⟨rfl, rfl⟩
    · exact ⟨rfl, rfl⟩
  · split
    · exact ⟨rfl, rfl⟩
    · exact ⟨rfl, rfl⟩

/-- A lookup through `GetSymbolFileAtPathFromRoot` never touches
`memory_buffers_` or the allocation counter: only `GetCStringSymbolData`
does. -/
theorem getAtRoot_preserves_buffers (env : Env) (module : Option Module)
    (root : String) (s : SupState) :
    (GetSymbolFileAtPathFromRoot env module root s).state.memory_buffers
        = s.memory_buffers
    ∧ (GetSymbolFileAtPathFromRoot env module root s).state.nextBuf = s.nextBuf := by
  cases module with
  | none => exact ⟨rfl, rfl⟩
  | some m =>
    cases hd : derivePaths m root with
    | none => simp [GetSymbolFileAtPathFromRoot, hd]
    | some pr =>
      obtain ⟨path, path_pdb⟩ := pr
      cases h1 : file_exists s.files path with
      | true => simp [GetSymbolFileAtPathFromRoot, hd, h1]
      | false =>
        have hcm := cacheMiss_preserves_buffers env root path path_pdb s
        simp only [GetSymbolFileAtPathFromRoot, hd, h1, Bool.false_eq_true, if_false]
        refine ⟨?_, ?_⟩
        · split
          · exact hcm.1
          · exact hcm.1
        · split
          · exact hcm.2
          · exact hcm.2

/-- Iterating roots in `GetSymbolFile` also leaves `memory_buffers_` and the
allocation counter untouched. -/
theorem getSymbolFile_preserves_buffers (env : Env) (module : Option Module)
    (roots : List String) (s : SupState) :
    (GetSymbolFile env module roots s).state.memory_buffers = s.memory_buffers
    ∧ (GetSymbolFile env module roots s).state.nextBuf = s.nextBuf := by
  induction roots generalizing s with
  | nil => exact ⟨rfl, rfl⟩
  | cons root rest ih =>
    have hr := getAtRoot_preserves_buffers env module root s
    by_cases h : (GetSymbolFileAtPathFromRoot env module root s).result
        = SymbolResult.NOT_FOUND
    · simp only [GetSymbolFile]
      rw [if_pos h]
      exact ⟨((ih _).1).trans hr.1, ((ih _).2).trans hr.2⟩
    · simp only [GetSymbolFile]
      rw [if_neg h]
      exact hr

/-- Reading the file data on top of the lookup changes nothing further. -/
theorem getSymbolFileAndData_preserves_buffers (env : Env) (module : Option Module)
    (roots : List String) (s : SupState) :
    (GetSymbolFileAndData env module roots s).2.2.2.memory_buffers = s.memory_buffers
    ∧ (GetSymbolFileAndData env module roots s).2.2.2.nextBuf = s.nextBuf := by
  have h := getSymbolFile_preserves_buffers env module roots s
  simp only [GetSymbolFileAndData]
  split
  · exact h
  · exact h

/-- Appending a fresh key at the back is found when the key was absent. -/
theorem mapFind_append_self (m : List (String × Nat)) (k : String) (v : Nat)
    (hf : mapFind m k = none) : mapFind (m ++ [(k, v)]) k = some v := by
  induction m with
  | nil => simp [mapFind]
  | cons p rest ih =>
    obtain ⟨q, w⟩ := p
    by_cases hq : q = k
    · rw [show mapFind ((q, w) :: rest) k
          = if q = k then some w else mapFind rest k from rfl, if_pos hq] at hf
      exact absurd hf (by simp)
    · rw [show mapFind ((q, w) :: rest) k
          = if q = k then some w else mapFind rest k from rfl, if_neg hq] at hf
      rw [List.cons_append,
        show mapFind ((q, w) :: (rest ++ [(k, v)])) k
          = if q = k then some w else mapFind (rest ++ [(k, v)]) k from rfl,
        if_neg hq]
      exact ih hf

/-- `map::insert` then `find` at the same key: an existing entry wins, an
absent key receives the new value. -/
theorem mapFind_mapInsert_self (m : List (String × Nat)) (k : String) (v : Nat) :
    mapFind (mapInsert m k v) k = some ((mapFind m k).getD v) := by
  unfold mapInsert
  cases hf : mapFind m k with
  | some v0 => simp [hf]
  | none =>
    simp only [hf, Option.isSome_none, Bool.false_eq_true, if_false, Option.getD_none]
    exact mapFind_append_self m k v hf

/-- C1: for the module `{codeFile: "app.exe", debugFile: "",
debugIdentifier: "ABC123", version: ""}` and root `/cache`, path derivation
produces the symbol path `/cache/app.pdb/ABC123/app.sym` and the native path
`/cache/app.pdb/ABC123/app.pdb`, whose fetch URL is the fixed base followed
by the suffix `/app.pdb/ABC123/app.pdb` (debug file synthesized as
`app.pdb` from `app.exe` by the 3-char-strip rule). -/
theorem c1_path_derivation_app_exe :
    derivePaths mApp "/cache" =
      some ("/cache/app.pdb/ABC123/app.sym", "/cache/app.pdb/ABC123/app.pdb")
    ∧ fetchUrl "/cache" "/cache/app.pdb/ABC123/app.pdb" =
      symbolServerBase ++ "/app.pdb/ABC123/app.pdb" := by
  constructor
  · decide
  · decide

/-- C2 (failing input): with the `C1` module and root `/cache`, an empty
cache, a failing fetch (`load_url` returns `NULL`), a working filesystem and
a converter that exits nonzero, `GetSymbolFileAtPathFromRoot` still creates
a file at the native path `/cache/app.pdb/ABC123/app.pdb` (the unconditional
`fopen(path_pdb, "wb")`), and the convert command's shell redirection leaves
an empty file at the `.sym` path, so the root returns `FOUND` — not
`NOT_FOUND` with the filesystem unchanged, as the claim states. -/
theorem c2_fetch_failure_still_writes :
    (GetSymbolFileAtPathFromRoot env0 (some mApp) "/cache" st0).result
        = SymbolResult.FOUND
    ∧ file_exists (GetSymbolFileAtPathFromRoot env0 (some mApp) "/cache" st0).state.files
        "/cache/app.pdb/ABC123/app.pdb" = true
    ∧ (GetSymbolFileAtPathFromRoot env0 (some mApp) "/cache" st0).state.fetchCalls = 1 := by
  decide

/-- C3: when the derived symbol file already exists at the first root,
`GetSymbolFile` returns `FOUND` with that path immediately and the world is
untouched — in particular the fetch and convert counters record zero new
calls to the fetcher or the converter. -/
theorem c3_cache_hit_short_circuit (env : Env) (m : Module) (root : String)
    (rest : List String) (s : SupState) (sp pp : String)
    (hder : derivePaths m root = some (sp, pp))
    (hex : file_exists s.files sp = true) :
    GetSymbolFile env (some m) (root :: rest) s
        = ⟨SymbolResult.FOUND, some sp, s⟩
    ∧ (GetSymbolFile env (some m) (root :: rest) s).state.fetchCalls = s.fetchCalls
    ∧ (GetSymbolFile env (some m) (root :: rest) s).state.convertCalls
        = s.convertCalls := by
  have h1 : GetSymbolFileAtPathFromRoot env (some m) root s
      = ⟨SymbolResult.FOUND, some sp, s⟩ := by
    simp [GetSymbolFileAtPathFromRoot, hder, hex]
  have h2 : GetSymbolFile env (some m) (root :: rest) s
      = ⟨SymbolResult.FOUND, some sp, s⟩ := by
    simp [GetSymbolFile, h1]
  exact ⟨h2, by rw [h2], by rw [h2]⟩

/-- Witness for C3: with the cached world `stHit`, the lookup returns the
cached `.sym` path and performs no fetch and no conversion. -/
theorem c3_witness :
    GetSymbolFile env0 (some mApp) ["/cache"] stHit
        = ⟨SymbolResult.FOUND, some "/cache/app.pdb/ABC123/app.sym", stHit⟩
    ∧ (GetSymbolFile env0 (some mApp) ["/cache"] stHit).state.fetchCalls
        = stHit.fetchCalls
    ∧ (GetSymbolFile env0 (some mApp) ["/cache"] stHit).state.convertCalls
        = stHit.convertCalls :=
  c3_cache_hit_short_circuit env0 mApp "/cache" [] stHit
    "/cache/app.pdb/ABC123/app.sym" "/cache/app.pdb/ABC123/app.pdb"
    (by decide) (by decide)

/-- C7: for a module whose `debug_file` is empty and whose `code_file` base
name is three characters or shorter, `GetSymbolFileAtPathFromRoot` returns
`NOT_FOUND` with the world unchanged — no fetch and no conversion are
attempted. -/
theorem c7_short_codefile_not_found (env : Env) (m : Module) (root : String)
    (s : SupState) (hdf : m.debug_file = "")
    (hlen : (pathnameFile m.code_file).length ≤ 3) :
    GetSymbolFileAtPathFromRoot env (some m) root s
        = ⟨SymbolResult.NOT_FOUND, none, s⟩ := by
  have hsyn : synthDebugFileName m = "" := by
    simp [synthDebugFileName, hdf, Nat.not_lt.mpr hlen,
      show pathnameFile "" = "" from by decide]
  have hder : derivePaths m root = none := by
    simp [derivePaths, hsyn]
  simp [GetSymbolFileAtPathFromRoot, hder]

/-- Witness for C7: the module `{codeFile: "abc", debugFile: ""}` fails path
derivation at root `/r` and the world is unchanged. -/
theorem c7_witness :
    GetSymbolFileAtPathFromRoot env0 (some ⟨"abc", "", "", ""⟩) "/r" st0
        = ⟨SymbolResult.NOT_FOUND, none, st0⟩ :=
  c7_short_codefile_not_found env0 ⟨"abc", "", "", ""⟩ "/r" st0 rfl (by decide)

/-- C8: the stem rule — when the debug file base name has more than four
characters and its lower-cased last four characters are `.pdb`, the stem is
the name with those four characters stripped; otherwise (shorter names, a
different extension, and in particular the name that is exactly `.pdb`) the
name is kept unchanged. -/
theorem c8_stem_rule (name : String) :
    (4 < name.length → strLower (strDrop name (name.length - 4)) = ".pdb" →
        symStem name = strTake name (name.length - 4))
    ∧ ((name.length ≤ 4 ∨ strLower (strDrop name (name.length - 4)) ≠ ".pdb") →
        symStem name = name)
    ∧ symStem ".pdb" = ".pdb" := by
  refine ⟨?_, ?_, by decide⟩
  · intro h1 h2
    simp [symStem, h1, h2]
  · intro h
    rcases h with h | h
    · have hgt : ¬(name.length > 4) := by omega
      simp only [symStem, hgt, if_false]
      rw [if_neg (by decide)]
    · by_cases hl : name.length > 4
      · simp [symStem, hl, h]
      · simp only [symStem, hl, if_false]
        rw [if_neg (by decide)]

/-- Witness for C8: `app.pdb` is stripped to `app`, `x.txt` is kept, and
the name that is exactly `.pdb` is kept. -/
theorem c8_witness :
    symStem "app.pdb" = strTake "app.pdb" ("app.pdb".length - 4)
    ∧ symStem "x.txt" = "x.txt" :=
  ⟨(c8_stem_rule "app.pdb").1 (by decide) (by decide),
   (c8_stem_rule "x.txt").2.1 (Or.inr (by decide))⟩

/-- Shape of a successful derivation: root, slash, debug file base name,
the identifier-or-version segment, slash, stem, extension. -/
theorem derivePaths_eq (m : Module) (root : String)
    (h : synthDebugFileName m ≠ "") :
    derivePaths m root = some
      (root ++ "/" ++ synthDebugFileName m ++ specIdentSegment m ++ "/"
          ++ symStem (synthDebugFileName m) ++ ".sym",
       root ++ "/" ++ synthDebugFileName m ++ specIdentSegment m ++ "/"
          ++ symStem (synthDebugFileName m) ++ ".pdb") := by
  unfold derivePaths
  rw [if_neg h]
  by_cases hid : m.debug_identifier = ""
  · by_cases hv : m.version = ""
    · simp [specIdentSegment, hid, hv, String.append_assoc]
    · simp [specIdentSegment, hid, hv, String.append_assoc]
  · simp [specIdentSegment, hid, String.append_assoc]

/-- C9: on a successful derivation the intermediate path segment after the
debug file base name is the `debug_identifier` when it is non-empty,
otherwise the `version` when that is non-empty, otherwise the segment is
omitted entirely (`specIdentSegment`, written from the spec's words), in
both the `.sym` path and the `.pdb` path. -/
theorem c9_identifier_segment (m : Module) (root sp pp : String)
    (h : derivePaths m root = some (sp, pp)) :
    sp = root ++ "/" ++ synthDebugFileName m ++ specIdentSegment m ++ "/"
        ++ symStem (synthDebugFileName m) ++ ".sym"
    ∧ pp = root ++ "/" ++ synthDebugFileName m ++ specIdentSegment m ++ "/"
        ++ symStem (synthDebugFileName m) ++ ".pdb" := by
  by_cases hdfn : synthDebugFileName m = ""
  · simp [derivePaths, hdfn] at h
  · rw [derivePaths_eq m root hdfn, Option.some.injEq, Prod.mk.injEq] at h
    exact ⟨h.1.symm, h.2.symm⟩

/-- Witness for C9: in the `C1` scenario the identifier `ABC123` is the
segment between the debug file base name and the stem. -/
theorem c9_witness :
    "/cache/app.pdb/ABC123/app.sym"
        = "/cache" ++ "/" ++ synthDebugFileName mApp ++ specIdentSegment mApp
          ++ "/" ++ symStem (synthDebugFileName mApp) ++ ".sym"
    ∧ "/cache/app.pdb/ABC123/app.pdb"
        = "/cache" ++ "/" ++ synthDebugFileName mApp ++ specIdentSegment mApp
          ++ "/" ++ symStem (synthDebugFileName mApp) ++ ".pdb" :=
  c9_identifier_segment mApp "/cache" "/cache/app.pdb/ABC123/app.sym"
    "/cache/app.pdb/ABC123/app.pdb" (by decide)

/-- Counterexample to C4 as stated: two successful `GetCStringSymbolData`
calls for the same module (the cached `C1` scenario).  The second call hands
out buffer `1`, but `std::map::insert` does not overwrite, so the registry
still maps `app.exe` to buffer `0` — not to the buffer just returned. -/
theorem c4_counterexample :
    (GetCStringSymbolData env0 (some mApp) ["/cache"]
        (GetCStringSymbolData env0 (some mApp) ["/cache"] stHit).state).result
        = SymbolResult.FOUND
    ∧ (GetCStringSymbolData env0 (some mApp) ["/cache"]
        (GetCStringSymbolData env0 (some mApp) ["/cache"] stHit).state).buffer
        = some (1, [65, 0], 2)
    ∧ mapFind (GetCStringSymbolData env0 (some mApp) ["/cache"]
          (GetCStringSymbolData env0 (some mApp) ["/cache"] stHit).state).state.memory_buffers
        "app.exe" ≠ some 1 := by
  decide

/-- C4 (amended): after a successful `GetCStringSymbolData`, the registry
entry for `module.code_file` is the buffer just returned when no entry
existed before the call; when an entry already existed it is kept unchanged
(`std::map::insert` does not overwrite), so the registry holds the earliest
unreleased buffer for that key, not the most recently issued one. -/
theorem c4_amended_registry (env : Env) (m : Module) (roots : List String)
    (s : SupState) (bufId : Nat) (bytes : List Nat) (size : Nat)
    (hbuf : (GetCStringSymbolData env (some m) roots s).buffer
        = some (bufId, bytes, size)) :
    mapFind (GetCStringSymbolData env (some m) roots s).state.memory_buffers
        m.code_file = some ((mapFind s.memory_buffers m.code_file).getD bufId) := by
  rcases hE : GetSymbolFileAndData env (some m) roots s with ⟨res, sf, sdata, s'⟩
  have hpres := getSymbolFileAndData_preserves_buffers env (some m) roots s
  rw [hE] at hpres
  by_cases hres : res = SymbolResult.FOUND
  · cases halloc : env.allocOk ((sdata.getD []).length + 1) with
    | true =>
      have hout : GetCStringSymbolData env (some m) roots s
          = ⟨res, sf,
              some (s'.nextBuf, sdata.getD [] ++ [0], (sdata.getD []).length + 1),
              { s' with
                nextBuf := s'.nextBuf + 1
                memory_buffers :=
                  mapInsert s'.memory_buffers (codeFileOf (some m)) s'.nextBuf }⟩ := by
        simp [GetCStringSymbolData, hE, hres, halloc]
      rw [hout] at hbuf ⊢
      rw [show (⟨res, sf,
            some (s'.nextBuf, sdata.getD [] ++ [0], (sdata.getD []).length + 1),
            { s' with
              nextBuf := s'.nextBuf + 1
              memory_buffers :=
                mapInsert s'.memory_buffers (codeFileOf (some m)) s'.nextBuf }⟩
          : CStrResult).buffer
        = some (s'.nextBuf, sdata.getD [] ++ [0], (sdata.getD []).length + 1)
        from rfl, Option.some.injEq, Prod.mk.injEq, Prod.mk.injEq] at hbuf
      obtain ⟨h1, _, _⟩ := hbuf
      show mapFind (mapInsert s'.memory_buffers (codeFileOf (some m)) s'.nextBuf)
          m.code_file = some ((mapFind s.memory_buffers m.code_file).getD bufId)
      rw [show codeFileOf (some m) = m.code_file from rfl, hpres.1, ← h1]
      exact mapFind_mapInsert_self s.memory_buffers m.code_file s'.nextBuf
    | false =>
      have hout : (GetCStringSymbolData env (some m) roots s).buffer = none := by
        simp [GetCStringSymbolData, hE, hres, halloc]
      rw [hout] at hbuf
      exact absurd hbuf (by simp)
  · have hout : (GetCStringSymbolData env (some m) roots s).buffer = none := by
      simp [GetCStringSymbolData, hE, hres]
    rw [hout] at hbuf
    exact absurd hbuf (by simp)

/-- Witness for the amended C4: a first successful call on the cached world
registers the returned buffer `0` under `app.exe` (no prior entry). -/
theorem c4_amended_witness :
    mapFind (GetCStringSymbolData env0 (some mApp) ["/cache"] stHit).state.memory_buffers
        mApp.code_file = some ((mapFind stHit.memory_buffers mApp.code_file).getD 0) :=
  c4_amended_registry env0 mApp ["/cache"] stHit 0 [65, 0] 2 (by decide)

/-- Counterexample to C6 as stated: in the repeat-call scenario the second
returned buffer (`1`) is not registered at all — the registry's value list
is still `[0]` — contradicting "it is registered keyed by
`module.codeFile`". -/
theorem c6_counterexample :
    (GetCStringSymbolData env0 (some mApp) ["/cache"]
        (GetCStringSymbolData env0 (some mApp) ["/cache"] stHit).state).result
        = SymbolResult.FOUND
    ∧ (GetCStringSymbolData env0 (some mApp) ["/cache"]
        (GetCStringSymbolData env0 (some mApp) ["/cache"] stHit).state).buffer
        = some (1, [65, 0], 2)
    ∧ ((GetCStringSymbolData env0 (some mApp) ["/cache"]
          (GetCStringSymbolData env0 (some mApp) ["/cache"] stHit).state).state.memory_buffers.map
        Prod.snd) = [0] := by
  decide

/-- C6 (amended): on a successful lookup with file contents `content`, when
allocation succeeds `GetCStringSymbolData` returns `FOUND` and a buffer that
is the null-terminated duplicate `content ++ [0]` with reported size
`content.length + 1`, and registers it keyed by `module.code_file` provided
no buffer was already registered under that key (an existing entry is kept
and the new buffer stays unregistered); when the duplicating allocation
fails the result is `INTERRUPT`, not `NOT_FOUND`. -/
theorem c6_buffer_contract (env : Env) (m : Module) (roots : List String)
    (s : SupState) (content : List Nat)
    (hres : (GetSymbolFileAndData env (some m) roots s).1 = SymbolResult.FOUND)
    (hdata : (GetSymbolFileAndData env (some m) roots s).2.2.1 = some content) :
    (env.allocOk (content.length + 1) = true →
      (GetCStringSymbolData env (some m) roots s).result = SymbolResult.FOUND
      ∧ (GetCStringSymbolData env (some m) roots s).buffer
          = some (s.nextBuf, content ++ [0], content.length + 1)
      ∧ (mapFind s.memory_buffers m.code_file = none →
          mapFind (GetCStringSymbolData env (some m) roots s).state.memory_buffers
              m.code_file = some s.nextBuf))
    ∧ (env.allocOk (content.length + 1) = false →
      (GetCStringSymbolData env (some m) roots s).result
          = SymbolResult.INTERRUPT) := by
  rcases hE : GetSymbolFileAndData env (some m) roots s with ⟨res, sf, sdata, s'⟩
  have hpres := getSymbolFileAndData_preserves_buffers env (some m) roots s
  rw [hE] at hpres
  have hres' : res = SymbolResult.FOUND := by rw [hE] at hres; exact hres
  have hdata' : sdata = some content := by rw [hE] at hdata; exact hdata
  have hget : sdata.getD [] = content := by rw [hdata']; rfl
  constructor
  · intro halloc
    have hout : GetCStringSymbolData env (some m) roots s
        = ⟨res, sf,
            some (s'.nextBuf, content ++ [0], content.length + 1),
            { s' with
              nextBuf := s'.nextBuf + 1
              memory_buffers :=
                mapInsert s'.memory_buffers (codeFileOf (some m)) s'.nextBuf }⟩ := by
      simp [GetCStringSymbolData, hE, hres', hget, halloc]
    refine ⟨by rw [hout]; exact hres', by rw [hout, hpres.2], ?_⟩
    intro hfree
    rw [hout]
    show mapFind (mapInsert s'.memory_buffers (codeFileOf (some m)) s'.nextBuf)
        m.code_file = some s.nextBuf
    rw [show codeFileOf (some m) = m.code_file from rfl, hpres.1,
      mapFind_mapInsert_self, hfree, hpres.2]
    rfl
  · intro halloc
    have hout : (GetCStringSymbolData env (some m) roots s).result
        = SymbolResult.INTERRUPT := by
      simp [GetCStringSymbolData, hE, hres', hget, halloc]
    exact hout

/-- Witness for the amended C6: on the cached world the returned buffer is
`"A"` plus the terminator with size `2`, registered under `app.exe`. -/
theorem c6_witness :
    (env0.allocOk (([65] : List Nat).length + 1) = true →
      (GetCStringSymbolData env0 (some mApp) ["/cache"] stHit).result
          = SymbolResult.FOUND
      ∧ (GetCStringSymbolData env0 (some mApp) ["/cache"] stHit).buffer
          = some (stHit.nextBuf, [65] ++ [0], ([65] : List Nat).length + 1)
      ∧ (mapFind stHit.memory_buffers mApp.code_file = none →
          mapFind (GetCStringSymbolData env0 (some mApp) ["/cache"] stHit).state.memory_buffers
              mApp.code_file = some stHit.nextBuf))
    ∧ (env0.allocOk (([65] : List Nat).length + 1) = false →
      (GetCStringSymbolData env0 (some mApp) ["/cache"] stHit).result
          = SymbolResult.INTERRUPT) :=
  c6_buffer_contract env0 mApp ["/cache"] stHit [65] (by decide) (by decide)

/-- The separator scan succeeds whenever no `mkdir` call fails with
`ENOENT`: every other outcome falls through to the next component. -/
theorem mkpathLoop_no_enoent (mkdirO : String → Option Nat)
    (h : ∀ d, mkdirO d ≠ some ENOENT) :
    ∀ (rest pre : List Char), mkpathLoop mkdirO pre rest = true := by
  intro rest
  induction rest with
  | nil => intro pre; rfl
  | cons c cs ih =>
    intro pre
    rw [show mkpathLoop mkdirO pre (c :: cs)
        = if c = '/' ∨ c = '\\' then
            (match mkdirO ⟨pre⟩ with
             | some e =>
               if e = ENOENT then false else mkpathLoop mkdirO (pre ++ [c]) cs
             | none => mkpathLoop mkdirO (pre ++ [c]) cs)
          else mkpathLoop mkdirO (pre ++ [c]) cs from rfl]
    by_cases hc : c = '/' ∨ c = '\\'
    · rw [if_pos hc]
      cases hm : mkdirO ⟨pre⟩ with
      | none => exact ih _
      | some e =>
        have he : ¬(e = ENOENT) := fun heq => h ⟨pre⟩ (by rw [hm, heq])
        show (if e = ENOENT then false else mkpathLoop mkdirO (pre ++ [c]) cs) = true
        rw [if_neg he]
        exact ih _
    · rw [if_neg hc]
      exact ih _

/-- Counterexample to C5 as stated: `mkdir("/a")` fails with `EACCES`
(permission denied) — a true creation failure — yet `mkpath` on `/a/f`
reports success, because only `errno == ENOENT` is treated as fatal. -/
theorem c5_counterexample :
    mkdirAcces "/a" = some EACCES ∧ mkpath mkdirAcces "/a/f" = true := by
  decide

/-- C5 (amended): `mkpath` tolerates any `mkdir` failure whose `errno` is
not `ENOENT` — already-existing directories (`EEXIST`) as the claim says,
but also permission denied (`EACCES`) — reporting success for every
non-empty path whenever no call fails with `ENOENT`; a failure with
`errno == ENOENT` is the one fatal case (second conjunct). -/
theorem c5_mkpath_enoent_only :
    (∀ (mkdirO : String → Option Nat) (path : String), path ≠ "" →
        (∀ d, mkdirO d ≠ some ENOENT) → mkpath mkdirO path = true)
    ∧ mkpath mkdirNoent "/a/b/f" = false := by
  constructor
  · intro mkdirO path hne h
    obtain ⟨data⟩ := path
    cases data with
    | nil => exact absurd (by decide : (⟨[]⟩ : String) = "") hne
    | cons c0 rest =>
      unfold mkpath
      rw [if_neg (by simp [String.length])]
      by_cases hC : (String.mk (c0 :: rest)).data.getLast? = some '/'
          ∧ mkdirO (strTake ⟨c0 :: rest⟩ ((String.mk (c0 :: rest)).length - 1)) = none
      · rw [if_pos hC]
      · rw [if_neg hC]
        exact mkpathLoop_no_enoent mkdirO h rest [c0]
  · decide

/-- Witness for the amended C5: with an always-succeeding `mkdir`, `mkpath`
reports success on `/a/b/f`. -/
theorem c5_witness : mkpath mkdirOk "/a/b/f" = true :=
  c5_mkpath_enoent_only.1 mkdirOk "/a/b/f" (by decide) (fun d => by simp [mkdirOk])

/-- C10: `FreeSymbolData` on a `NULL` module returns immediately and leaves
`memory_buffers_` unchanged. -/
theorem c10_free_null_module (memory_buffers : List (String × Nat)) :
    FreeSymbolData none memory_buffers = memory_buffers := rfl

end Breakpad
